import Mathlib

/-!
Verification of the Bust-Furious blackjack server (shared-board mode).

The definitions below are a shallow embedding of the Python sources:
bytes are `List ℕ` (each entry a byte value), the random shuffle is a
parameter (`supply` streams the successive fresh decks), network receives
and decisions arrive as explicit `Option` inputs, and send outcomes come
from an explicit oracle.  Fallible parsing returns `Option`.
-/

set_option maxHeartbeats 1000000

/-- A playing card, from `Protocol.Card` (`rank` 1..13, `suit` 0..3). -/
structure Card where
  rank : ℕ
  suit : ℕ
deriving DecidableEq, Repr

/-- `Card.game_value` from `Protocol.py`: rank 1 → 11, ranks 2..10 → rank,
anything else → 10. -/
def Card.game_value (c : Card) : ℕ :=
  if c.rank = 1 then 11
  else if 2 ≤ c.rank ∧ c.rank ≤ 10 then c.rank
  else 10

/-- `OneBoard._sum_cards`: sum of game values of a hand. -/
def sum_cards (hand : List Card) : ℕ :=
  (hand.map Card.game_value).sum

/-- Result codes from `OneBoard.py`. -/
def RESULT_NOT_OVER : ℕ := 0x0
def RESULT_TIE : ℕ := 0x1
def RESULT_LOSS : ℕ := 0x2
def RESULT_WIN : ℕ := 0x3

namespace GameLogic

/-- `GameLogic.GameLogic.dealer_should_hit` from `GameLogic.py`
(the dict of hands becomes the list of its values). -/
def dealer_should_hit (dealer_total : ℕ) (players_hands : List (List Card)) : Bool :=
  if dealer_total > 17 then false
  else
    let best_player :=
      players_hands.foldl
        (fun b hand =>
          let total := sum_cards hand
          if total ≤ 21 then max b total else b) 0
    if best_player = 0 then false
    else dealer_total ≤ best_player

/-- Modelled from the spec: the shared-board dealer rule as §4.3 words it —
draw exactly when `dealerTotal ≤ 21` and `dealerTotal ≤ max(total over
hands with total ≤ 21)`, with no draw when no hand has total ≤ 21 (the
17 cap is flagged by the spec as belonging to the excluded single-session
mode). -/
def dealer_should_hit_spec (dealer_total : ℕ) (players_hands : List (List Card)) : Bool :=
  let best_player :=
    players_hands.foldl
      (fun b hand =>
        let total := sum_cards hand
        if total ≤ 21 then max b total else b) 0
  if best_player = 0 then false
  else decide (dealer_total ≤ 21) && decide (dealer_total ≤ best_player)

end GameLogic

namespace Protocol

def MAGIC_COOKIE : ℕ := 0xabcddcba
def MSG_OFFER : ℕ := 0x2
def MSG_REQUEST : ℕ := 0x3
def MSG_PAYLOAD : ℕ := 0x4

/-- `Offer` dataclass. The name is kept as its encoded bytes. -/
structure Offer where
  server_tcp_port : ℤ
  server_name : List ℕ
deriving DecidableEq, Repr

/-- `Request` dataclass.  The name is kept as its encoded bytes. -/
structure Request where
  rounds : ℤ
  client_name : List ℕ
deriving DecidableEq, Repr

/-- Big-endian bytes of a 32-bit value (struct `!I`). -/
def u32_bytes (n : ℕ) : List ℕ :=
  [n / 16777216 % 256, n / 65536 % 256, n / 256 % 256, n % 256]

/-- Big-endian bytes of a 16-bit value (struct `H`). -/
def u16_bytes (n : ℕ) : List ℕ :=
  [n / 256 % 256, n % 256]

/-- Reassemble a big-endian 32-bit value from four bytes. -/
def u32_of (b0 b1 b2 b3 : ℕ) : ℕ :=
  ((b0 * 256 + b1) * 256 + b2) * 256 + b3

/-- `Protocol._fix_name`: truncate to 32 bytes and zero-pad to 32. -/
def fix_name (name : List ℕ) : List ℕ :=
  let b := name.take 32
  b ++ List.replicate (32 - b.length) 0

/-- `Protocol._parse_name`: the bytes before the first NUL. -/
def parse_name (b : List ℕ) : List ℕ :=
  b.takeWhile (fun x => x != 0)

/-- `struct.calcsize("!IBB32s")`. -/
def request_size : ℕ := 38

/-- `struct.calcsize("!IBH32s")`. -/
def offer_size : ℕ := 39

/-- `struct.calcsize("!IB5s")`. -/
def client_payload_size : ℕ := 10

/-- `Protocol.build_request` (client side): clamp rounds to 1..255, pack
cookie, type, rounds byte, fixed-width name. -/
def build_request (req : Request) : List ℕ :=
  let rounds := max 1 (min req.rounds 255)
  u32_bytes MAGIC_COOKIE ++ MSG_REQUEST :: rounds.toNat :: fix_name req.client_name

/-- `Protocol.parse_request` (server side). -/
def parse_request (data : List ℕ) : Option Request :=
  if data.length ≠ request_size then none
  else if u32_of (data.getD 0 0) (data.getD 1 0) (data.getD 2 0) (data.getD 3 0) ≠ MAGIC_COOKIE ∨
      data.getD 4 0 ≠ MSG_REQUEST then none
  else some ⟨(data.getD 5 0 : ℤ), parse_name (data.drop 6)⟩

/-- `Protocol.build_offer` (server side).  `struct.pack`'s `H` raises for a
port outside 0..65535, so packing can fail. -/
def build_offer (o : Offer) : Option (List ℕ) :=
  if o.server_tcp_port < 0 ∨ 65536 ≤ o.server_tcp_port then none
  else some (u32_bytes MAGIC_COOKIE ++ MSG_OFFER ::
    (u16_bytes o.server_tcp_port.toNat ++ fix_name o.server_name))

/-- `Protocol.parse_offer` (client side). -/
def parse_offer (data : List ℕ) : Option Offer :=
  if data.length ≠ offer_size then none
  else if u32_of (data.getD 0 0) (data.getD 1 0) (data.getD 2 0) (data.getD 3 0) ≠ MAGIC_COOKIE ∨
      data.getD 4 0 ≠ MSG_OFFER then none
  else some ⟨((data.getD 5 0 * 256 + data.getD 6 0 : ℕ) : ℤ), parse_name (data.drop 7)⟩

/-- The 5 bytes of `"Hittt"`. -/
def hittt_bytes : List ℕ := [72, 105, 116, 116, 116]

/-- The 5 bytes of `"Stand"`. -/
def stand_bytes : List ℕ := [83, 116, 97, 110, 100]

/-- `Protocol.parse_payload_from_client` (server side): exact 10-byte buffer,
cookie, payload tag, and a decision field byte-for-byte equal to `"Hittt"`
or `"Stand"`; anything else is `none`. -/
def parse_payload_from_client (data : List ℕ) : Option (List ℕ) :=
  if data.length ≠ client_payload_size then none
  else if u32_of (data.getD 0 0) (data.getD 1 0) (data.getD 2 0) (data.getD 3 0) ≠ MAGIC_COOKIE ∨
      data.getD 4 0 ≠ MSG_PAYLOAD then none
  else if data.drop 5 = hittt_bytes ∨ data.drop 5 = stand_bytes then some (data.drop 5)
  else none

end Protocol

/-- `RoundResults` dataclass from `OneBoard.py`. -/
structure RoundResults where
  dealer_wins : ℕ
  client_wins : ℕ
  ties : ℕ
deriving DecidableEq, Repr

/-- The registry maps of `OneBoard` (`remaining_rounds`, `stats`,
`player_name`), keyed by connection id. -/
structure Registry where
  remaining_rounds : ℕ → Option ℤ
  stats : ℕ → Option RoundResults
  player_name : ℕ → Option (List ℕ)

/-- Point update of the stats map. -/
def set_stats (reg : Registry) (conn : ℕ) (st : Option RoundResults) : Registry :=
  ⟨reg.remaining_rounds, fun c => if c = conn then st else reg.stats c, reg.player_name⟩

/-- `OneBoard._drop_player`: close the connection and pop the three maps. -/
def drop_player (conn : ℕ) (reg : Registry) : Registry :=
  ⟨fun c => if c = conn then none else reg.remaining_rounds c,
   fun c => if c = conn then none else reg.stats c,
   fun c => if c = conn then none else reg.player_name c⟩

/-- The bytes of the default name `"client"`. -/
def client_default_name : List ℕ := [99, 108, 105, 101, 110, 116]

/-- `OneBoard.add_player`: the request read is the `recv` input (`none` for a
short read / EOF).  The `Bool` records whether `add_player` closed the
connection (it never does). -/
def add_player (recv : Option (List ℕ)) (conn : ℕ) (reg : Registry) : Registry × Bool :=
  match recv with
  | none => (reg, false)
  | some bytes =>
    match Protocol.parse_request bytes with
    | none => (reg, false)
    | some req =>
      let rounds := max 1 (min req.rounds 255)
      let name := if req.client_name = [] then client_default_name else req.client_name
      (⟨fun c => if c = conn then some rounds else reg.remaining_rounds c,
        fun c => if c = conn then some ⟨0, 0, 0⟩ else reg.stats c,
        fun c => if c = conn then some name else reg.player_name c⟩, false)

/-- The board's draw source: the current deck plus the stream of fresh
shuffled decks that `random.shuffle` would produce (`supply idx` is the next
fresh deck). -/
structure DrawState where
  deck : List Card
  supply : ℕ → List Card
  idx : ℕ

/-- The 52-card deck built by `OneBoard._new_shuffled_deck` before the
shuffle: `[Card(rank=r, suit=s) for s in range(4) for r in range(1, 14)]`. -/
def full_deck : List Card :=
  (List.range 4).flatMap (fun s => (List.range 13).map (fun r => ⟨r + 1, s⟩))

/-- `OneBoard._ensure_deck`: replace the deck by a fresh shuffled one when
fewer than `needed` cards remain. -/
def ensure_deck (s : DrawState) (needed : ℕ) : DrawState :=
  if s.deck.length < needed then ⟨s.supply s.idx, s.supply, s.idx + 1⟩ else s

/-- `OneBoard._draw`: ensure one card, then pop from the end of the deck. -/
def draw (s : DrawState) : Card × DrawState :=
  let s' := ensure_deck s 1
  (s'.deck.getLastD ⟨2, 0⟩, ⟨s'.deck.dropLast, s'.supply, s'.idx⟩)

/-- The arbitrary card sent with terminal results (`Card(rank=2, suit=0)`). -/
def dummy_card : Card := ⟨2, 0⟩

/-- The result computed at Settling (`OneBoard.play_forever` lines 241-248). -/
def settle_result (dealer_total player_total : ℕ) : ℕ :=
  if dealer_total > 21 then RESULT_WIN
  else if player_total > dealer_total then RESULT_WIN
  else if dealer_total > player_total then RESULT_LOSS
  else RESULT_TIE

/-- The stats update at Settling (`OneBoard.play_forever` lines 253-260). -/
def update_stats (result : ℕ) (st : RoundResults) : RoundResults :=
  if result = RESULT_WIN then ⟨st.dealer_wins, st.client_wins + 1, st.ties⟩
  else if result = RESULT_LOSS then ⟨st.dealer_wins + 1, st.client_wins, st.ties⟩
  else ⟨st.dealer_wins, st.client_wins, st.ties + 1⟩

/-- The Settling pass over the active list (`for conn in list(active)`),
updating each enrolled active player's stats from its final total. -/
def settle_all (hands : ℕ → List Card) (dealer_total : ℕ)
    (active : List ℕ) (reg : Registry) : Registry :=
  active.foldl
    (fun r conn =>
      match r.stats conn with
      | none => r
      | some st =>
        set_stats r conn
          (some (update_stats (settle_result dealer_total (sum_cards (hands conn))) st)))
    reg

/-- The dealer-hit broadcast (`OneBoard.play_forever` lines 231-234): append
the payload to the outbox of every active connection. -/
def broadcast (active : List ℕ) (p : ℕ × Card)
    (outbox : ℕ → List (ℕ × Card)) : ℕ → List (ℕ × Card) :=
  fun c => if c ∈ active then outbox c ++ [p] else outbox c

/-- The state threaded through one player's turn (`OneBoard.play_forever`
lines 176-214), seen from that player's connection: their hand, the draw
source, the registry, the round's active list, the payloads sent to them,
the send-attempt counter and whether the board closed their connection. -/
structure TurnState where
  hand : List Card
  draw_st : DrawState
  reg : Registry
  active : List ℕ
  msgs : List (ℕ × Card)
  send_idx : ℕ
  closed : Bool

/-- One player's decision loop (`OneBoard.play_forever` lines 179-214).
`inputs` lists the successive results of `_get_decision` (`none` =
disconnect or undecodable decision); `sends` is the oracle of send
outcomes.  A non-`"Stand"` decision is a hit, as in the source. -/
def player_turn_loop (conn : ℕ) (sends : ℕ → Bool) :
    List (Option (List ℕ)) → TurnState → TurnState
  | [], s =>
    { s with reg := drop_player conn s.reg, active := s.active.erase conn, closed := true }
  | none :: _, s =>
    { s with reg := drop_player conn s.reg, active := s.active.erase conn, closed := true }
  | some dec :: rest, s =>
    if dec = Protocol.stand_bytes then s
    else
      let c := (draw s.draw_st).1
      let hand' := s.hand ++ [c]
      let s1 : TurnState :=
        { s with
          hand := hand',
          draw_st := (draw s.draw_st).2,
          msgs := s.msgs ++ [(RESULT_NOT_OVER, c)],
          send_idx := s.send_idx + 1 }
      if sends s.send_idx = false then
        { s1 with reg := drop_player conn s1.reg, active := s1.active.erase conn, closed := true }
      else if sum_cards hand' > 21 then
        let s2 : TurnState :=
          { s1 with
            msgs := s1.msgs ++ [(RESULT_LOSS, dummy_card)],
            send_idx := s1.send_idx + 1 }
        let reg' :=
          match s2.reg.stats conn with
          | none => s2.reg
          | some st => set_stats s2.reg conn (some ⟨st.dealer_wins + 1, st.client_wins, st.ties⟩)
        { s2 with reg := reg', active := s2.active.erase conn }
      else player_turn_loop conn sends rest s1

/-- The dealer-hit loop (`OneBoard.play_forever` lines 225-229) with fuel:
returns the final dealer hand, the draw state and the number of draws. -/
def dealer_run (players_hands : List (List Card)) :
    ℕ → List Card → DrawState → List Card × DrawState × ℕ
  | 0, hand, ds => (hand, ds, 0)
  | fuel + 1, hand, ds =>
    if GameLogic.dealer_should_hit (sum_cards hand) players_hands then
      let c := (draw ds).1
      let r := dealer_run players_hands fuel (hand ++ [c]) (draw ds).2
      (r.1, r.2.1, r.2.2 + 1)
    else (hand, ds, 0)

/-! ## Helper lemmas -/

theorem game_value_ge_two (c : Card) : 2 ≤ c.game_value := by
  unfold Card.game_value
  split_ifs <;> omega

theorem sum_cards_append (h : List Card) (c : Card) :
    sum_cards (h ++ [c]) = sum_cards h + c.game_value := by
  simp [sum_cards]

theorem full_deck_length : full_deck.length = 52 := by decide

theorem settle_all_stats_of_not_mem (hands : ℕ → List Card) (dt : ℕ) (conn : ℕ) :
    ∀ (active : List ℕ) (reg : Registry), conn ∉ active →
      (settle_all hands dt active reg).stats conn = reg.stats conn := by
  intro active
  induction active with
  | nil => intro reg _; rfl
  | cons a rest ih =>
    intro reg hmem
    have hne : conn ≠ a := by
      intro h
      exact hmem (h ▸ List.mem_cons_self a rest)
    have hrest : conn ∉ rest := fun h => hmem (List.mem_cons_of_mem a h)
    unfold settle_all
    simp only [List.foldl_cons]
    rw [show (List.foldl _ _ rest : Registry) = settle_all hands dt rest _ from rfl]
    rw [ih _ hrest]
    cases hstat : reg.stats a with
    | none => simp [hstat]
    | some st => simp [hstat, set_stats, hne]

/-- An empty registry, used as a concrete sample. -/
def empty_registry : Registry := ⟨fun _ => none, fun _ => none, fun _ => none⟩

/-! ## Claims -/

/-- C9: for every card with rank in 1..13 and suit in 0..3, `game_value` is
11 at rank 1, the rank itself at ranks 2..10, and 10 at ranks 11..13, and
the suit never affects the value. -/
theorem game_value_matches_spec (r s : ℕ) (h1 : 1 ≤ r) (h2 : r ≤ 13) (h3 : s ≤ 3) :
    ((r = 1 → Card.game_value ⟨r, s⟩ = 11) ∧
     (2 ≤ r → r ≤ 10 → Card.game_value ⟨r, s⟩ = r) ∧
     (11 ≤ r → Card.game_value ⟨r, s⟩ = 10)) ∧
    (∀ s', Card.game_value ⟨r, s⟩ = Card.game_value ⟨r, s'⟩) := by
  refine ⟨⟨?_, ?_, ?_⟩, fun s' => rfl⟩ <;> intros <;>
    simp only [Card.game_value] <;> split_ifs <;> omega

/-- Witness for C9 at rank 1, suit 0. -/
theorem game_value_matches_spec_witness : Card.game_value ⟨1, 0⟩ = 11 :=
  ((game_value_matches_spec 1 0 (by decide) (by decide) (by decide)).1.1 rfl)

/-- C1 divergence: at dealer total 18 against a single hand totalling 19
(cards 10 and 9), the code's `dealer_should_hit` answers `false` — its
`dealer_total > 17` guard fires — although the spec's shared-board rule
(18 ≤ 21 and 18 ≤ 19, uncapped by 17) requires a hit, contradicting the
class's own docstring "Dealer hits while his total is <= max(player totals)
and <= 21". -/
theorem dealer_should_hit_seventeen_cap :
    GameLogic.dealer_should_hit 18 [[⟨10, 0⟩, ⟨9, 0⟩]] = false ∧
    GameLogic.dealer_should_hit_spec 18 [[⟨10, 0⟩, ⟨9, 0⟩]] = true := by
  decide

/-- C7 counterexample: with 16 snapshotted players and an empty deck, the
Dealing check reshuffles to a fresh 52-card deck, but the required
2·16 + 2 + 20 = 54 cards exceed 52, so the postcondition fails. -/
theorem ensure_deck_shortfall :
    (1 : ℕ) ≤ 16 ∧
    (ensure_deck ⟨[], fun _ => full_deck, 0⟩ (2 * 16 + 2 + 20)).deck.length < 2 * 16 + 2 + 20 := by
  constructor
  · decide
  · show (ensure_deck ⟨[], fun _ => full_deck, 0⟩ 54).deck.length < 54
    have : (ensure_deck ⟨[], fun _ => full_deck, 0⟩ 54).deck = full_deck := by
      unfold ensure_deck
      simp
    rw [this, full_deck_length]
    omega

/-- C7 amended: for every deck state whose fresh decks are permutations of
the 52-card deck and every snapshot of n players with 1 ≤ n ≤ 15, after the
Dealing step's deck check the deck holds at least 2·n + 2 + 20 cards (for
n ≥ 16 the requirement exceeds the 52 cards a reshuffle can provide). -/
theorem ensure_deck_enough (s : DrawState) (n : ℕ) (h1 : 1 ≤ n) (h2 : n ≤ 15)
    (hsup : ∀ i, (s.supply i).Perm full_deck) :
    2 * n + 2 + 20 ≤ (ensure_deck s (2 * n + 2 + 20)).deck.length := by
  unfold ensure_deck
  by_cases hc : s.deck.length < 2 * n + 2 + 20
  · rw [if_pos hc]
    have hlen := (hsup s.idx).length_eq
    rw [full_deck_length] at hlen
    simp only
    omega
  · rw [if_neg hc]
    omega

/-- Witness for the amended C7 at one player and an empty deck. -/
theorem ensure_deck_enough_witness :
    2 * 1 + 2 + 20 ≤ (ensure_deck ⟨[], fun _ => full_deck, 0⟩ (2 * 1 + 2 + 20)).deck.length :=
  ensure_deck_enough ⟨[], fun _ => full_deck, 0⟩ 1 (by decide) (by decide)
    (fun _ => List.Perm.refl full_deck)

/-- C2: at Settling, for dealer total d and player total p the result sent is
client-win when d > 21, else client-win when p > d, else client-loss when
d > p, else tie; and the stats update increments exactly one field — the
total of the three fields grows by one, and each field grows exactly when
the corresponding result was sent. -/
theorem settling_matches_spec (d p : ℕ) (st : RoundResults) :
    (settle_result d p =
      if 21 < d then RESULT_WIN
      else if d < p then RESULT_WIN
      else if p < d then RESULT_LOSS
      else RESULT_TIE) ∧
    ((update_stats (settle_result d p) st).dealer_wins +
       (update_stats (settle_result d p) st).client_wins +
       (update_stats (settle_result d p) st).ties =
     st.dealer_wins + st.client_wins + st.ties + 1) ∧
    ((update_stats (settle_result d p) st).client_wins = st.client_wins + 1 ↔
      settle_result d p = RESULT_WIN) ∧
    ((update_stats (settle_result d p) st).dealer_wins = st.dealer_wins + 1 ↔
      settle_result d p = RESULT_LOSS) ∧
    ((update_stats (settle_result d p) st).ties = st.ties + 1 ↔
      settle_result d p = RESULT_TIE) := by
  unfold settle_result update_stats RESULT_WIN RESULT_LOSS RESULT_TIE
  split_ifs <;> simp_all <;> omega

/-- C10: when the Request read fails (short read / EOF) or the request bytes
do not parse, `add_player` returns with the registry maps untouched and
without closing the connection. -/
theorem add_player_atomic_on_failure (recv : Option (List ℕ)) (conn : ℕ) (reg : Registry)
    (h : recv = none ∨ ∃ b, recv = some b ∧ Protocol.parse_request b = none) :
    add_player recv conn reg = (reg, false) := by
  rcases h with h | ⟨b, hb, hparse⟩
  · subst h
    rfl
  · subst hb
    simp [add_player, hparse]

/-- Witness for C10: a failed receive leaves a concrete registry unchanged. -/
theorem add_player_atomic_on_failure_witness :
    add_player none 0 empty_registry = (empty_registry, false) :=
  add_player_atomic_on_failure none 0 empty_registry (Or.inl rfl)

/-- C6: decision decode is an exact match — `parse_payload_from_client`
returns a decision iff the buffer is exactly 10 bytes with the magic cookie,
type tag 0x4, and a decision field byte-for-byte equal to `"Hittt"` or
`"Stand"`; any other decision content yields the failure value. -/
theorem parse_payload_decision_exact (data d : List ℕ) :
    Protocol.parse_payload_from_client data = some d ↔
      (data.length = 10 ∧
       Protocol.u32_of (data.getD 0 0) (data.getD 1 0) (data.getD 2 0) (data.getD 3 0) =
         Protocol.MAGIC_COOKIE ∧
       data.getD 4 0 = Protocol.MSG_PAYLOAD ∧
       (d = Protocol.hittt_bytes ∨ d = Protocol.stand_bytes) ∧
       data.drop 5 = d) := by
  unfold Protocol.parse_payload_from_client Protocol.client_payload_size
  split_ifs with h1 h2 h3
  · exact iff_of_false (by simp) (fun h => h1 h.1)
  · refine iff_of_false (by simp) ?_
    intro h
    rcases h2 with h2 | h2
    · exact h2 h.2.1
    · exact h2 h.2.2.1
  · push_neg at h1 h2
    constructor
    · intro h
      have hd : data.drop 5 = d := Option.some.inj h
      refine ⟨h1, h2.1, h2.2, ?_, hd⟩
      rcases h3 with h3 | h3
      · exact Or.inl (hd ▸ h3)
      · exact Or.inr (hd ▸ h3)
    · intro h
      rw [h.2.2.2.2]
  · refine iff_of_false (by simp) ?_
    intro h
    apply h3
    rcases h.2.2.2.1 with hh | hh
    · exact Or.inl (h.2.2.2.2.trans hh)
    · exact Or.inr (h.2.2.2.2.trans hh)

/-- C5: decode totality — `parse_request` and `parse_payload_from_client`
are total functions into `Option`: any buffer of wrong length, wrong magic
cookie or wrong type tag yields `none`, and whenever they return a value it
is fully populated from the buffer (every field determined by the bytes). -/
theorem parse_functions_total (data : List ℕ) :
    ((data.length ≠ 38 ∨
      Protocol.u32_of (data.getD 0 0) (data.getD 1 0) (data.getD 2 0) (data.getD 3 0) ≠
        Protocol.MAGIC_COOKIE ∨
      data.getD 4 0 ≠ Protocol.MSG_REQUEST) → Protocol.parse_request data = none) ∧
    (∀ req, Protocol.parse_request data = some req →
      data.length = 38 ∧
      Protocol.u32_of (data.getD 0 0) (data.getD 1 0) (data.getD 2 0) (data.getD 3 0) =
        Protocol.MAGIC_COOKIE ∧
      data.getD 4 0 = Protocol.MSG_REQUEST ∧
      req = ⟨(data.getD 5 0 : ℤ), Protocol.parse_name (data.drop 6)⟩) ∧
    ((data.length ≠ 10 ∨
      Protocol.u32_of (data.getD 0 0) (data.getD 1 0) (data.getD 2 0) (data.getD 3 0) ≠
        Protocol.MAGIC_COOKIE ∨
      data.getD 4 0 ≠ Protocol.MSG_PAYLOAD) → Protocol.parse_payload_from_client data = none) ∧
    (∀ d, Protocol.parse_payload_from_client data = some d →
      data.length = 10 ∧
      Protocol.u32_of (data.getD 0 0) (data.getD 1 0) (data.getD 2 0) (data.getD 3 0) =
        Protocol.MAGIC_COOKIE ∧
      data.getD 4 0 = Protocol.MSG_PAYLOAD ∧
      (d = Protocol.hittt_bytes ∨ d = Protocol.stand_bytes) ∧
      data.drop 5 = d) := by
  refine ⟨?_, ?_, ?_, fun d h => (parse_payload_decision_exact data d).1 h⟩
  · intro h
    unfold Protocol.parse_request Protocol.request_size
    rcases h with h | h | h
    · rw [if_pos h]
    · rcases eq_or_ne data.length 38 with hl | hl
      · rw [if_neg (by omega), if_pos (Or.inl h)]
      · rw [if_pos hl]
    · rcases eq_or_ne data.length 38 with hl | hl
      · rw [if_neg (by omega), if_pos (Or.inr h)]
      · rw [if_pos hl]
  · intro req h
    unfold Protocol.parse_request Protocol.request_size at h
    split_ifs at h with h1 h2
    · push_neg at h1 h2
      exact ⟨h1, h2.1, h2.2, (Option.some.inj h).symm⟩
  · intro h
    rcases eq_or_ne (Protocol.parse_payload_from_client data) none with hn | hn
    · exact hn
    · rcases Option.ne_none_iff_exists'.1 hn with ⟨d, hd⟩
      have := (parse_payload_decision_exact data d).1 hd
      rcases h with h | h | h
      · exact absurd this.1 h
      · exact absurd this.2.1 h
      · exact absurd this.2.2.1 h

/-- Witness for C5: the empty buffer is rejected by both decoders. -/
theorem parse_functions_total_witness :
    Protocol.parse_request [] = none ∧ Protocol.parse_payload_from_client [] = none :=
  ⟨(parse_functions_total []).1 (Or.inl (by decide)),
   (parse_functions_total []).2.2.1 (Or.inl (by decide))⟩

theorem magic_cookie_bytes :
    Protocol.u32_bytes Protocol.MAGIC_COOKIE = [171, 205, 220, 186] := by decide

theorem fix_name_length (n : List ℕ) : (Protocol.fix_name n).length = 32 := by
  unfold Protocol.fix_name
  simp only [List.length_append, List.length_replicate, List.length_take]
  omega

theorem takeWhile_append_replicate_zero (n : List ℕ) (k : ℕ) (h : ∀ b ∈ n, b ≠ 0) :
    (n ++ List.replicate k 0).takeWhile (fun x => x != 0) = n := by
  induction n with
  | nil =>
    cases k with
    | zero => rfl
    | succ m => simp [List.replicate_succ, List.takeWhile_cons]
  | cons a rest ih =>
    have ha : ((a : ℕ) != 0) = true := by
      simpa using h a (List.mem_cons_self a rest)
    simp only [List.cons_append, List.takeWhile_cons, ha, if_true]
    rw [ih (fun b hb => h b (List.mem_cons_of_mem a hb))]

theorem parse_name_fix_name (n : List ℕ) (h1 : n.length ≤ 32) (h2 : ∀ b ∈ n, b ≠ 0) :
    Protocol.parse_name (Protocol.fix_name n) = n := by
  unfold Protocol.parse_name Protocol.fix_name
  simp only [List.take_of_length_le h1]
  exact takeWhile_append_replicate_zero n _ h2

theorem request_roundtrip_aux (req : Protocol.Request) (h1 : 1 ≤ req.rounds)
    (h2 : req.rounds ≤ 255) (h3 : req.client_name.length ≤ 32)
    (h4 : ∀ b ∈ req.client_name, b ≠ 0) :
    Protocol.parse_request (Protocol.build_request req) = some req := by
  have hcl : max 1 (min req.rounds 255) = req.rounds := by omega
  have hb : Protocol.build_request req =
      171 :: 205 :: 220 :: 186 :: Protocol.MSG_REQUEST :: req.rounds.toNat ::
        Protocol.fix_name req.client_name := by
    simp only [Protocol.build_request, hcl, magic_cookie_bytes]
    rfl
  rw [hb]
  unfold Protocol.parse_request Protocol.request_size
  rw [if_neg (by simp [fix_name_length])]
  rw [if_neg (by
    simp only [List.getD_cons_succ, List.getD_cons_zero]
    decide)]
  simp only [List.getD_cons_succ, List.getD_cons_zero, List.drop_succ_cons, List.drop_zero]
  rw [parse_name_fix_name req.client_name h3 h4]
  rw [Int.toNat_of_nonneg (by omega)]

theorem offer_roundtrip_aux (o : Protocol.Offer) (h1 : 0 ≤ o.server_tcp_port)
    (h2 : o.server_tcp_port < 65536) (h3 : o.server_name.length ≤ 32)
    (h4 : ∀ b ∈ o.server_name, b ≠ 0) :
    (Protocol.build_offer o).bind Protocol.parse_offer = some o := by
  have hb : Protocol.build_offer o =
      some (171 :: 205 :: 220 :: 186 :: Protocol.MSG_OFFER ::
        o.server_tcp_port.toNat / 256 % 256 :: o.server_tcp_port.toNat % 256 ::
        Protocol.fix_name o.server_name) := by
    unfold Protocol.build_offer
    rw [if_neg (by omega)]
    simp only [magic_cookie_bytes, Protocol.u16_bytes]
    rfl
  rw [hb, Option.some_bind]
  unfold Protocol.parse_offer Protocol.offer_size
  rw [if_neg (by simp [fix_name_length])]
  rw [if_neg (by
    simp only [List.getD_cons_succ, List.getD_cons_zero]
    decide)]
  simp only [List.getD_cons_succ, List.getD_cons_zero, List.drop_succ_cons, List.drop_zero]
  rw [parse_name_fix_name o.server_name h3 h4]
  have hp : o.server_tcp_port.toNat < 65536 := by omega
  have hport : o.server_tcp_port.toNat / 256 % 256 * 256 + o.server_tcp_port.toNat % 256 =
      o.server_tcp_port.toNat := by omega
  rw [hport, Int.toNat_of_nonneg h1]

/-- C4 counterexample: the round-trip law fails on unclamped/unfit values —
a Request with rounds 0 parses back with rounds 1 (the encoder clamps), and
an Offer whose name bytes contain a NUL parses back truncated at the NUL. -/
theorem protocol_roundtrip_cex :
    Protocol.parse_request (Protocol.build_request ⟨0, []⟩) = some ⟨1, []⟩ ∧
    (Protocol.Request.mk 1 [] ≠ ⟨0, []⟩) ∧
    (Protocol.build_offer ⟨1, [65, 0, 66]⟩).bind Protocol.parse_offer = some ⟨1, [65]⟩ ∧
    (Protocol.Offer.mk 1 [65] ≠ ⟨1, [65, 0, 66]⟩) := by decide

/-- C4 amended: the Request round-trip law holds for every Request whose
rounds lie in the encoder's clamp range 1..255 and whose name bytes are at
most 32 with no NUL byte; likewise the Offer round-trip law holds for every
Offer with a port in 0..65535 and such a name. -/
theorem protocol_roundtrip_amended :
    (∀ req : Protocol.Request, 1 ≤ req.rounds → req.rounds ≤ 255 →
      req.client_name.length ≤ 32 → (∀ b ∈ req.client_name, b ≠ 0) →
      Protocol.parse_request (Protocol.build_request req) = some req) ∧
    (∀ o : Protocol.Offer, 0 ≤ o.server_tcp_port → o.server_tcp_port < 65536 →
      o.server_name.length ≤ 32 → (∀ b ∈ o.server_name, b ≠ 0) →
      (Protocol.build_offer o).bind Protocol.parse_offer = some o) :=
  ⟨request_roundtrip_aux, offer_roundtrip_aux⟩

/-- Witness for the amended C4 at a concrete request and offer. -/
theorem protocol_roundtrip_amended_witness :
    Protocol.parse_request (Protocol.build_request ⟨3, [65]⟩) = some ⟨3, [65]⟩ ∧
    (Protocol.build_offer ⟨13117, [66]⟩).bind Protocol.parse_offer = some ⟨13117, [66]⟩ :=
  ⟨protocol_roundtrip_amended.1 ⟨3, [65]⟩ (by decide) (by decide) (by decide)
      (by decide),
   protocol_roundtrip_amended.2 ⟨13117, [66]⟩ (by decide) (by decide) (by decide)
      (by decide)⟩

theorem dealer_should_hit_false_of_ge (t : ℕ) (hands : List (List Card)) (h : 18 ≤ t) :
    GameLogic.dealer_should_hit t hands = false := by
  unfold GameLogic.dealer_should_hit
  rw [if_pos (by omega)]

theorem dealer_run_hit_false (hands : List (List Card)) :
    ∀ (fuel : ℕ) (hand : List Card) (ds : DrawState),
      18 ≤ sum_cards hand + 2 * fuel →
      GameLogic.dealer_should_hit (sum_cards (dealer_run hands fuel hand ds).1) hands =
        false := by
  intro fuel
  induction fuel with
  | zero =>
    intro hand ds h
    simp only [dealer_run]
    exact dealer_should_hit_false_of_ge _ hands (by omega)
  | succ n ih =>
    intro hand ds h
    by_cases hc : GameLogic.dealer_should_hit (sum_cards hand) hands = true
    · simp only [dealer_run, hc, if_true]
      apply ih
      have hv := game_value_ge_two (draw ds).1
      rw [sum_cards_append]
      omega
    · have hc' : GameLogic.dealer_should_hit (sum_cards hand) hands = false := by
        revert hc
        cases GameLogic.dealer_should_hit (sum_cards hand) hands <;> simp
      simp only [dealer_run, hc']
      simp [hc']

theorem dealer_run_count_le (hands : List (List Card)) :
    ∀ (fuel : ℕ) (hand : List Card) (ds : DrawState),
      (dealer_run hands fuel hand ds).2.2 ≤ fuel := by
  intro fuel
  induction fuel with
  | zero =>
    intro hand ds
    simp [dealer_run]
  | succ n ih =>
    intro hand ds
    by_cases hc : GameLogic.dealer_should_hit (sum_cards hand) hands = true
    · simp only [dealer_run, hc, if_true]
      have := ih (hand ++ [(draw ds).1]) (draw ds).2
      omega
    · have hc' : GameLogic.dealer_should_hit (sum_cards hand) hands = false := by
        revert hc
        cases GameLogic.dealer_should_hit (sum_cards hand) hands <;> simp
      simp [dealer_run, hc']

/-- C8: for every initial dealer hand and players' hands with totals ≤ 21,
the DealerTurn loop run with 52 draws of fuel reaches a state where
`dealer_should_hit` is false — the loop stops within at most 52 draws and
never loops forever. -/
theorem dealer_loop_terminates (players_hands : List (List Card)) (hand : List Card)
    (ds : DrawState) (hp : ∀ h ∈ players_hands, sum_cards h ≤ 21) :
    GameLogic.dealer_should_hit (sum_cards (dealer_run players_hands 52 hand ds).1)
      players_hands = false ∧
    (dealer_run players_hands 52 hand ds).2.2 ≤ 52 :=
  ⟨dealer_run_hit_false players_hands 52 hand ds (by omega),
   dealer_run_count_le players_hands 52 hand ds⟩

/-- Witness for C8 with an empty table and deck stream of fresh decks. -/
theorem dealer_loop_terminates_witness :
    GameLogic.dealer_should_hit
      (sum_cards (dealer_run [] 52 [] ⟨[], fun _ => full_deck, 0⟩).1) [] = false ∧
    (dealer_run [] 52 [] ⟨[], fun _ => full_deck, 0⟩).2.2 ≤ 52 :=
  dealer_loop_terminates [] [] ⟨[], fun _ => full_deck, 0⟩ (by simp)

theorem player_turn_loop_bust_eq (conn : ℕ) (sends : ℕ → Bool) (dec : List ℕ)
    (rest : List (Option (List ℕ))) (s : TurnState) (st : RoundResults)
    (hdec : dec ≠ Protocol.stand_bytes)
    (hsend : sends s.send_idx = true)
    (hbust : 21 < sum_cards (s.hand ++ [(draw s.draw_st).1]))
    (hst : s.reg.stats conn = some st) :
    player_turn_loop conn sends (some dec :: rest) s =
      ⟨s.hand ++ [(draw s.draw_st).1], (draw s.draw_st).2,
       set_stats s.reg conn (some ⟨st.dealer_wins + 1, st.client_wins, st.ties⟩),
       s.active.erase conn,
       s.msgs ++ [(RESULT_NOT_OVER, (draw s.draw_st).1)] ++ [(RESULT_LOSS, dummy_card)],
       s.send_idx + 1 + 1, s.closed⟩ := by
  simp only [player_turn_loop, hdec, hsend, hst, hbust]
  simp

/-- C3: during PlayerTurns, when a hit makes the player's total exceed 21
(and the hit-card send succeeded), the loop ends that turn at once: the two
payloads appended for that player are the hit card (`not-over`) and a
terminal `client-loss`, the player's `dealer_wins` stat is incremented, the
player leaves the round's active set (so the Settling pass and the
dealer-turn broadcasts no longer touch them), while their
`remaining_rounds`, stats and `player_name` registry entries survive and
the connection is not closed. -/
theorem player_bust_handling (conn : ℕ) (sends : ℕ → Bool) (dec : List ℕ)
    (rest : List (Option (List ℕ))) (s : TurnState) (st : RoundResults)
    (hdec : dec ≠ Protocol.stand_bytes)
    (hsend : sends s.send_idx = true)
    (hbust : 21 < sum_cards (s.hand ++ [(draw s.draw_st).1]))
    (hst : s.reg.stats conn = some st)
    (hnd : s.active.Nodup) :
    (player_turn_loop conn sends (some dec :: rest) s).msgs =
      s.msgs ++ [(RESULT_NOT_OVER, (draw s.draw_st).1), (RESULT_LOSS, dummy_card)] ∧
    (player_turn_loop conn sends (some dec :: rest) s).reg.stats conn =
      some ⟨st.dealer_wins + 1, st.client_wins, st.ties⟩ ∧
    conn ∉ (player_turn_loop conn sends (some dec :: rest) s).active ∧
    (player_turn_loop conn sends (some dec :: rest) s).reg.remaining_rounds conn =
      s.reg.remaining_rounds conn ∧
    (player_turn_loop conn sends (some dec :: rest) s).reg.player_name conn =
      s.reg.player_name conn ∧
    (player_turn_loop conn sends (some dec :: rest) s).closed = s.closed ∧
    (∀ (hands : ℕ → List Card) (dt : ℕ) (r : Registry),
      (settle_all hands dt (player_turn_loop conn sends (some dec :: rest) s).active
        r).stats conn = r.stats conn) ∧
    (∀ (p : ℕ × Card) (outbox : ℕ → List (ℕ × Card)),
      broadcast (player_turn_loop conn sends (some dec :: rest) s).active p outbox conn =
        outbox conn) := by
  rw [player_turn_loop_bust_eq conn sends dec rest s st hdec hsend hbust hst]
  have hmem : conn ∉ s.active.erase conn := hnd.not_mem_erase
  refine ⟨by simp, by simp [set_stats], hmem, rfl, rfl, rfl, ?_, ?_⟩
  · intro hands dt r
    exact settle_all_stats_of_not_mem hands dt conn _ r hmem
  · intro p outbox
    simp [broadcast, hmem]

/-- A concrete mid-turn state: one enrolled player (conn 0) holding 10+10,
one card left in the deck. -/
def sample_turn_state : TurnState :=
  ⟨[⟨10, 0⟩, ⟨10, 0⟩], ⟨[⟨10, 0⟩], fun _ => full_deck, 0⟩,
   ⟨fun c => if c = 0 then some 3 else none,
    fun c => if c = 0 then some ⟨0, 0, 0⟩ else none,
    fun c => if c = 0 then some client_default_name else none⟩,
   [0], [], 0, false⟩

/-- Witness for C3: the busting player leaves the active set. -/
theorem player_bust_handling_witness :
    0 ∉ (player_turn_loop 0 (fun _ => true) [some Protocol.hittt_bytes]
      sample_turn_state).active :=
  (player_bust_handling 0 (fun _ => true) Protocol.hittt_bytes [] sample_turn_state
    ⟨0, 0, 0⟩ (by decide) rfl (by decide) rfl (by decide)).2.2.1
